import Mathlib

/-!
Verification development for the session-partitioned IndexedDB persistence
layer in `db.js` (class `ChatDatabase`).  The mutable IndexedDB object
stores are modelled as lists of rows inside one record `DB`; each database
method becomes a pure state transition on `DB`.  A transaction that commits
is one application of the transition; a transaction that aborts leaves the
state unchanged, which mirrors IndexedDB rollback.  JavaScript strings are
modelled as Lean `String` (code-point comparison, which agrees with the
UTF-16 code-unit order used by IndexedDB on the basic multilingual plane),
`Date.now()` results as `Nat` millisecond values supplied explicitly, and
`Math.random().toString(36).substr(2, 9)` suffixes as explicit `String`
arguments, one per row index.
-/

/-- Error taxonomy of the spec: rejected promises from the database layer. -/
inductive DbError where
  | notFound
  | duplicateKey
  | dataError
  deriving DecidableEq, Repr

/-- JavaScript truthiness test for an optional string field: `!x` holds when
the field is absent (`undefined`) or the empty string. -/
def jsFalsyStr : Option String → Bool
  | none => true
  | some v => v == ""

/-- Decimal digit character, as produced by JavaScript template-literal
conversion of a number digit. -/
def digitCh : Nat → Char
  | 0 => '0' | 1 => '1' | 2 => '2' | 3 => '3' | 4 => '4'
  | 5 => '5' | 6 => '6' | 7 => '7' | 8 => '8' | _ => '9'

/-- Fuel-driven decimal printer (most significant digit first).  The fuel is
only a structural-recursion bound; `printNat` supplies enough of it. -/
def printNatAux : Nat → Nat → List Char
  | 0, _ => []
  | fuel + 1, n =>
    if n < 10 then [digitCh n]
    else printNatAux fuel (n / 10) ++ [digitCh (n % 10)]

/-- Decimal digit list of a natural number, as `${n}` renders it in a
JavaScript template literal. -/
def printNat (n : Nat) : List Char :=
  printNatAux (n + 1) n

/-- Decimal string of a natural number. -/
def natStr (n : Nat) : String :=
  String.mk (printNat n)

/-- Decimal parser used only to prove that `printNat` is injective. -/
def parseNat (cs : List Char) : Nat :=
  cs.foldl (fun acc c => 10 * acc + (c.toNat - 48)) 0

theorem digitCh_toNat {d : Nat} (h : d < 10) : (digitCh d).toNat = 48 + d := by
  interval_cases d <;> rfl

theorem parseNat_append (as : List Char) (c : Char) :
    parseNat (as ++ [c]) = 10 * parseNat as + (c.toNat - 48) := by
  simp [parseNat, List.foldl_append]

theorem parseNat_printNatAux : ∀ fuel n, n < fuel → parseNat (printNatAux fuel n) = n := by
  intro fuel
  induction fuel with
  | zero => intro n h; omega
  | succ f ih =>
    intro n h
    by_cases h10 : n < 10
    · simp [printNatAux, h10, parseNat, digitCh_toNat h10]
    · have hf : n / 10 < f := by omega
      simp only [printNatAux, if_neg h10]
      rw [parseNat_append, ih _ hf, digitCh_toNat (Nat.mod_lt _ (by omega))]
      omega

theorem printNat_inj {a b : Nat} (h : printNat a = printNat b) : a = b := by
  have ha := parseNat_printNatAux (a + 1) a (Nat.lt_succ_self a)
  have hb := parseNat_printNatAux (b + 1) b (Nat.lt_succ_self b)
  rw [← ha, ← hb]
  exact congrArg parseNat h

theorem natStr_inj {a b : Nat} (h : natStr a = natStr b) : a = b := by
  apply printNat_inj
  simpa [natStr] using congrArg String.data h

/-- Concatenating strings concatenates their character data. -/
theorem strData_append (a b : String) : (a ++ b).data = a.data ++ b.data := rfl

theorem strApp_left_cancel {s a b : String} (h : s ++ a = s ++ b) : a = b := by
  have hd : s.data ++ a.data = s.data ++ b.data := by
    have := congrArg String.data h
    simpa [strData_append] using this
  cases a; cases b
  exact congrArg String.mk (List.append_cancel_left hd)

/-- Lexicographic comparison of character lists by code point, mirroring the
order IndexedDB uses on string keys (UTF-16 code units; identical on the
basic multilingual plane). -/
def charListLE : List Char → List Char → Bool
  | [], _ => true
  | _ :: _, [] => false
  | a :: as, b :: bs =>
    a.toNat < b.toNat || (a.toNat == b.toNat && charListLE as bs)

/-- String order used by IndexedDB key ranges. -/
def strLE (x y : String) : Bool :=
  charListLE x.data y.data

/-- Indexed map starting at a given index: the shape of a JavaScript
`forEach((x, idx) => ...)` loop that uses the element index. -/
def mapFrom (f : Nat → α → β) : Nat → List α → List β
  | _, [] => []
  | i, a :: as => f i a :: mapFrom f (i + 1) as

theorem length_mapFrom (f : Nat → α → β) : ∀ i l, (mapFrom f i l).length = l.length := by
  intro i l
  induction l generalizing i with
  | nil => rfl
  | cons a as ih => simp [mapFrom, ih]

theorem mem_mapFrom {f : Nat → α → β} :
    ∀ {i : Nat} {l : List α} {x : β}, x ∈ mapFrom f i l →
      ∃ j a, a ∈ l ∧ i ≤ j ∧ x = f j a := by
  intro i l
  induction l generalizing i with
  | nil => intro x hx; cases hx
  | cons a as ih =>
    intro x hx
    rcases List.mem_cons.mp hx with h | h
    · exact ⟨i, a, List.mem_cons_self _ _, Nat.le_refl _, h⟩
    · rcases ih h with ⟨j, b, hb, hij, hx⟩
      exact ⟨j, b, List.mem_cons_of_mem _ hb, by omega, hx⟩

theorem mapFrom_map_nodup (f : Nat → α → β) (key : β → κ) (l : List α)
    (h : ∀ j k a b, a ∈ l → b ∈ l → j ≠ k → key (f j a) ≠ key (f k b)) :
    ∀ i, ((mapFrom f i l).map key).Nodup := by
  induction l with
  | nil => intro i; simp [mapFrom]
  | cons a as ih =>
    intro i
    simp only [mapFrom, List.map_cons, List.nodup_cons]
    constructor
    · intro hmem
      rcases List.mem_map.mp hmem with ⟨x, hx, hkey⟩
      rcases mem_mapFrom hx with ⟨j, b, hb, hij, rfl⟩
      exact h j i b a (List.mem_cons_of_mem _ hb) (List.mem_cons_self _ _)
        (by omega) hkey
    · exact ih (fun j k x y hx hy hjk =>
        h j k x y (List.mem_cons_of_mem _ hx) (List.mem_cons_of_mem _ hy) hjk) (i + 1)

/-- Insertion step of the comparator sort: `le x y` means the comparator
places `x` no later than `y`. -/
def insertLe (le : α → α → Bool) (x : α) : List α → List α
  | [] => [x]
  | y :: ys => if le x y then x :: y :: ys else y :: insertLe le x ys

/-- Comparator sort modelling JavaScript `Array.prototype.sort(cmp)`. -/
def sortLe (le : α → α → Bool) : List α → List α
  | [] => []
  | x :: xs => insertLe le x (sortLe le xs)

theorem mem_insertLe (le : α → α → Bool) (x : α) :
    ∀ l (a : α), a ∈ insertLe le x l ↔ a = x ∨ a ∈ l := by
  intro l a
  induction l with
  | nil => simp [insertLe]
  | cons y ys ih =>
    by_cases h : le x y
    · simp [insertLe, h]
    · simp only [insertLe, if_neg h, List.mem_cons, ih]
      tauto

theorem mem_sortLe (le : α → α → Bool) : ∀ l (a : α), a ∈ sortLe le l ↔ a ∈ l := by
  intro l a
  induction l with
  | nil => simp [sortLe]
  | cons x xs ih => simp [sortLe, mem_insertLe, ih]

theorem pairwise_insertLe (le : α → α → Bool)
    (htot : ∀ a b, le a b || le b a)
    (htrans : ∀ a b c, le a b = true → le b c = true → le a c = true)
    (x : α) (l : List α) (hl : l.Pairwise (fun a b => le a b = true)) :
    (insertLe le x l).Pairwise (fun a b => le a b = true) := by
  induction l with
  | nil => simp [insertLe]
  | cons y ys ih =>
    rcases List.pairwise_cons.mp hl with ⟨hy, hys⟩
    by_cases h : le x y
    · rw [insertLe, if_pos h]
      refine List.pairwise_cons.mpr ⟨?_, hl⟩
      intro b hb
      rcases List.mem_cons.mp hb with rfl | hb
      · exact h
      · exact htrans x y b h (hy b hb)
    · rw [insertLe, if_neg h]
      refine List.pairwise_cons.mpr ⟨?_, ih hys⟩
      · intro b hb
        rcases (mem_insertLe le x ys b).mp hb with hbx | hb
        · rw [hbx]
          rcases Bool.or_eq_true_iff.mp (htot x y) with hxy | hyx
          · exact absurd hxy h
          · exact hyx
        · exact hy b hb

theorem pairwise_sortLe (le : α → α → Bool)
    (htot : ∀ a b, le a b || le b a)
    (htrans : ∀ a b c, le a b = true → le b c = true → le a c = true) :
    ∀ l : List α, (sortLe le l).Pairwise (fun a b => le a b = true) := by
  intro l
  induction l with
  | nil => simp [sortLe]
  | cons x xs ih => exact pairwise_insertLe le htot htrans x _ ih

/-! ## Data model: the six object stores of `ChatDatabase` (dbVersion 2) -/

/-- Row of the `sessions` store (`keyPath: 'id'`); the free-form properties
besides the primary key are kept as an association list. -/
structure SessionRow where
  id : String
  fields : List (String × String)
  deriving DecidableEq, Repr

/-- Row of the `messages` store (`keyPath: 'id'`, index on `sessionId`).
`id` and `sessionId` are optional because caller-supplied message objects
may lack them before `saveMessages`/`addMessage` fills them in; `text` and
`timestamp` stand for the free-form payload. -/
structure MsgRow where
  id : Option String
  sessionId : Option String
  timestamp : Nat
  text : String
  deriving DecidableEq, Repr

/-- Row of the `resources` store (`keyPath: 'id'`, composite index
`sessionId_type` on `[sessionId, type]`). -/
structure ResRow where
  id : String
  sessionId : String
  type : String
  key : String
  data : String
  timestamp : Nat
  deriving DecidableEq, Repr

/-- Row of the `settings` store (`keyPath: 'sessionId'`); the settings
fields spread into the stored object are kept as an association list. -/
structure SettingsRow where
  sessionId : String
  fields : List (String × String)
  deriving DecidableEq, Repr

/-- Row of the `customReplies` store (`keyPath: 'id'`, index on
`sessionId`). -/
structure ReplyRow where
  id : String
  sessionId : String
  text : String
  enabled : Bool
  timestamp : Nat
  deriving DecidableEq, Repr

/-- Row of the `anniversaries` store (`keyPath: 'id'`, index on
`sessionId`). -/
structure AnnRow where
  id : String
  sessionId : String
  name : String
  date : String
  type : String
  createdAt : Nat
  deriving DecidableEq, Repr

/-- The whole database: the six object stores. -/
structure DB where
  sessions : List SessionRow
  messages : List MsgRow
  resources : List ResRow
  settings : List SettingsRow
  customReplies : List ReplyRow
  anniversaries : List AnnRow
  deriving DecidableEq, Repr

def emptyDB : DB := ⟨[], [], [], [], [], []⟩

/-- Caller-supplied custom reply (`{text, enabled}`); `enabled` may be
absent. -/
structure ReplyIn where
  text : String
  enabled : Option Bool
  deriving DecidableEq, Repr

/-- Caller-supplied anniversary (`{name, date, type}`); `type` may be
absent. -/
structure AnnIn where
  name : String
  date : String
  type : Option String
  deriving DecidableEq, Repr

/-- JavaScript `a || d` on an optional string: the default wins when the
field is absent or falsy (empty). -/
def jsOrStr (o : Option String) (d : String) : String :=
  match o with
  | none => d
  | some v => if v == "" then d else v

/-! ## Connection handle (`open`, and the `if (!this.db) await this.open()`
guard at the head of every collection operation, e.g. `getSessions`). -/

/-- State of the `ChatDatabase` instance and of the underlying store.
`db` is the `this.db` field (a cached connection handle, identified by a
number); `opens` counts underlying `indexedDB.open` connections created;
`storedVersion`/`upgrades` track the store schema version and how many
times `onupgradeneeded` ran. -/
structure ConnState where
  db : Option Nat
  opens : Nat
  storedVersion : Nat
  upgrades : Nat
  deriving DecidableEq, Repr

def dbVersion : Nat := 2

/-- `open()`: unconditionally issues `indexedDB.open(dbName, dbVersion)`,
creating a fresh underlying connection; the upgrade callback runs exactly
when the stored version is below `dbVersion`; on success `this.db` is set
to the new handle, which is also returned. -/
def openDb (st : ConnState) : ConnState × Nat :=
  let upg := if st.storedVersion < dbVersion then st.upgrades + 1 else st.upgrades
  ({ db := some st.opens, opens := st.opens + 1,
     storedVersion := dbVersion, upgrades := upg }, st.opens)

/-- The guard every collection operation begins with:
`if (!this.db) await this.open()`, then use `this.db`. -/
def ensureOpen (st : ConnState) : ConnState × Nat :=
  match st.db with
  | some h => (st, h)
  | none => openDb st

/-! ## Shared store primitives -/

/-- IndexedDB `store.put(r)` keyed by `key`: replace the row with the same
primary key, or append when none exists. -/
def putByKey (key : α → String) (rows : List α) (r : α) : List α :=
  if rows.any (fun x => key x == key r)
  then rows.map (fun x => if key x == key r then r else x)
  else rows ++ [r]

/-- JavaScript object spread `{...base, ...over}` on association lists:
keys of `over` win; only lookup order is observable. -/
def spreadFields (base over : List (String × String)) : List (String × String) :=
  base.filter (fun p => (over.lookup p.1).isNone) ++ over

/-! ## Sessions -/

/-- `updateSession(sessionId, updates)`: fetch the row by primary key;
reject (`NotFoundError`) when absent, else shallow-merge `updates` over it
(`{...session, ...updates}`) and `put` it back.  The merged object keeps
the stored `id` unless `updates` itself carries an `id` property. -/
def updateSession (db : DB) (s : String) (updates : List (String × String)) :
    DB × Except DbError Unit :=
  match db.sessions.find? (fun r => r.id == s) with
  | none => (db, .error .notFound)
  | some session =>
    let updated : SessionRow :=
      { id := ((updates.lookup "id").getD session.id),
        fields := spreadFields session.fields
          (updates.filter (fun p => !(p.1 == "id"))) }
    ({ db with sessions := putByKey (fun r => r.id) db.sessions updated }, .ok ())

/-- Upper bound of the composite range used when deleting a session's
resources: `IDBKeyRange.bound([sessionId, ''], [sessionId, '￿'])`. -/
def uffffStr : String := "\uFFFF"

/-- `deleteSession(sessionId)`: one `readwrite` transaction over all six
stores; delete the session row by key, cursor-delete every `messages`,
`customReplies` and `anniversaries` row whose `sessionId` index key equals
the session, cursor-delete every `resources` row inside the bounded
composite range, and delete the `settings` row by key.  The promise
resolves on `tx.oncomplete`, so the whole cascade is one state
transition. -/
def deleteSession (db : DB) (s : String) : DB :=
  { sessions := db.sessions.filter (fun r => !(r.id == s)),
    messages := db.messages.filter (fun m => !(m.sessionId == some s)),
    resources := db.resources.filter
      (fun r => !(r.sessionId == s && strLE "" r.type && strLE r.type uffffStr)),
    settings := db.settings.filter (fun r => !(r.sessionId == s)),
    customReplies := db.customReplies.filter (fun r => !(r.sessionId == s)),
    anniversaries := db.anniversaries.filter (fun r => !(r.sessionId == s)) }

/-! ## Messages -/

/-- Generated message identifier:
the template literal of `saveMessages`/`addMessage`. -/
def genMsgId (s : String) (now : Nat) (rand : String) : String :=
  s ++ "_msg_" ++ natStr now ++ "_" ++ rand

/-- `if (!msg.sessionId) msg.sessionId = sessionId` — the assignment runs
exactly when the field is falsy (absent or empty). -/
def fillSessionId (s : String) (m : MsgRow) : MsgRow :=
  if jsFalsyStr m.sessionId then { m with sessionId := some s } else m

/-- `if (!msg.id) msg.id = ...` — a generated id is written exactly when
the field is falsy (absent or empty). -/
def fillMsgId (s : String) (now : Nat) (rand : String) (m : MsgRow) : MsgRow :=
  if jsFalsyStr m.id then { m with id := some (genMsgId s now rand) } else m

/-- The message objects as they stand after the `messages.forEach` loop of
`saveMessages`: because the loop mutates the caller's objects in place,
this list is also what the caller's array holds afterwards.  `nowAt i` and
`randAt i` are the `Date.now()` / `Math.random()` draws for row `i`. -/
def normMessages (s : String) (nowAt : Nat → Nat) (randAt : Nat → String)
    (msgs : List MsgRow) : List MsgRow :=
  mapFrom (fun i m => fillMsgId s (nowAt i) (randAt i) (fillSessionId s m)) 0 msgs

/-- Sequence of `store.add` requests: each one fails on a missing key or a
duplicate primary key, which aborts the transaction. -/
def addMsgRows : List MsgRow → List MsgRow → Except DbError (List MsgRow)
  | rows, [] => .ok rows
  | rows, m :: ms =>
    match m.id with
    | none => .error .dataError
    | some i =>
      if rows.any (fun r => r.id == some i) then .error .duplicateKey
      else addMsgRows (rows ++ [m]) ms

/-- `saveMessages(sessionId, messages)`: one `readwrite` transaction on
`messages`; first cursor-delete every row whose `sessionId` index key
equals the session, then `add` each normalized new message.  The promise
resolves on `tx.oncomplete`; an aborted transaction rolls back, leaving
the store unchanged. -/
def saveMessages (db : DB) (s : String) (msgs : List MsgRow)
    (nowAt : Nat → Nat) (randAt : Nat → String) : DB × Except DbError Unit :=
  let remaining := db.messages.filter (fun m => !(m.sessionId == some s))
  match addMsgRows remaining (normMessages s nowAt randAt msgs) with
  | .ok rows => ({ db with messages := rows }, .ok ())
  | .error e => (db, .error e)

/-- `addMessage(sessionId, message)`: normalize the single message the same
way and `add` it. -/
def addMessage (db : DB) (s : String) (m : MsgRow) (now : Nat) (rand : String) :
    DB × Except DbError Unit :=
  match addMsgRows db.messages [fillMsgId s now rand (fillSessionId s m)] with
  | .ok rows => ({ db with messages := rows }, .ok ())
  | .error e => (db, .error e)

/-! ## Resources -/

/-- Resource primary key: the template literal
of `saveResource`/`loadResource`/`deleteResource`. -/
def resId (s t k : String) : String :=
  s ++ "_" ++ t ++ "_" ++ k

/-- The item object `saveResource` builds. -/
def mkRes (s t k data : String) (now : Nat) : ResRow :=
  { id := resId s t k, sessionId := s, type := t, key := k,
    data := data, timestamp := now }

/-- `saveResource(sessionId, type, key, data)`: `store.put` of the item,
keyed on `id`, so an existing row with the same id is overwritten. -/
def saveResource (db : DB) (s t k data : String) (now : Nat) : DB :=
  { db with resources := putByKey (fun r => r.id) db.resources (mkRes s t k data now) }

/-- `loadResource(sessionId, type, key)`: `store.get` of the composite id,
returning the row's `data` or `null`. -/
def loadResource (db : DB) (s t k : String) : Option String :=
  (db.resources.find? (fun r => r.id == resId s t k)).map (fun r => r.data)

/-! ## Settings -/

/-- `saveSettings(sessionId, settings)`: build `{sessionId, ...settings}`
and `store.put` it, keyed on `sessionId`.  The spread means a `sessionId`
property inside `settings` would win over the argument. -/
def saveSettings (db : DB) (s : String) (settings : List (String × String)) : DB :=
  let item : SettingsRow :=
    { sessionId := ((settings.lookup "sessionId").getD s),
      fields := settings.filter (fun p => !(p.1 == "sessionId")) }
  { db with settings := putByKey (fun r => r.sessionId) db.settings item }

/-- `loadSettings(sessionId)`: `store.get` by primary key, or `null`. -/
def loadSettings (db : DB) (s : String) : Option SettingsRow :=
  db.settings.find? (fun r => r.sessionId == s)

/-! ## Custom replies -/

/-- Generated custom-reply identifier: the template literal of
`saveCustomReplies`, with the loop index as suffix. -/
def genReplyId (s : String) (now : Nat) (idx : Nat) : String :=
  s ++ "_reply_" ++ natStr now ++ "_" ++ natStr idx

/-- The item object built for reply `idx`; `enabled` defaults to true
(`reply.enabled !== false`). -/
def mkReply (s : String) (now : Nat) (idx : Nat) (r : ReplyIn) : ReplyRow :=
  { id := genReplyId s now idx, sessionId := s, text := r.text,
    enabled := !(r.enabled == some false), timestamp := now }

/-- The rows inserted by one `saveCustomReplies` call. -/
def normReplies (s : String) (nowAt : Nat → Nat) (replies : List ReplyIn) :
    List ReplyRow :=
  mapFrom (fun i r => mkReply s (nowAt i) i r) 0 replies

/-- Sequence of `store.add` requests for reply rows. -/
def addReplyRows : List ReplyRow → List ReplyRow → Except DbError (List ReplyRow)
  | rows, [] => .ok rows
  | rows, r :: rs =>
    if rows.any (fun x => x.id == r.id) then .error .duplicateKey
    else addReplyRows (rows ++ [r]) rs

/-- `saveCustomReplies(sessionId, replies)`: delete the session's old rows
and `add` the new ones inside one transaction. -/
def saveCustomReplies (db : DB) (s : String) (replies : List ReplyIn)
    (nowAt : Nat → Nat) : DB × Except DbError Unit :=
  let remaining := db.customReplies.filter (fun r => !(r.sessionId == s))
  match addReplyRows remaining (normReplies s nowAt replies) with
  | .ok rows => ({ db with customReplies := rows }, .ok ())
  | .error e => (db, .error e)

/-- The filtered and sorted row list `loadCustomReplies` builds before
projecting: keep rows with `enabled !== false`, sort by the comparator
`(a, b) => b.timestamp - a.timestamp` (non-increasing timestamp). -/
def customRepliesQuery (db : DB) (s : String) : List ReplyRow :=
  sortLe (fun a b => b.timestamp ≤ a.timestamp)
    ((db.customReplies.filter (fun r => r.sessionId == s)).filter
      (fun r => !(r.enabled == false)))

/-- `loadCustomReplies(sessionId)`: the filtered, sorted rows projected to
`{text, id}`. -/
def loadCustomReplies (db : DB) (s : String) : List (String × String) :=
  (customRepliesQuery db s).map (fun r => (r.text, r.id))

/-! ## Anniversaries -/

/-- Generated anniversary identifier: the template literal of
`saveAnniversaries`, with the loop index as suffix. -/
def genAnnId (s : String) (now : Nat) (idx : Nat) : String :=
  s ++ "_ann_" ++ natStr now ++ "_" ++ natStr idx

/-- The item object built for anniversary `idx`; `type` defaults to
`"anniversary"` (`ann.type || 'anniversary'`). -/
def mkAnn (s : String) (now : Nat) (idx : Nat) (a : AnnIn) : AnnRow :=
  { id := genAnnId s now idx, sessionId := s, name := a.name, date := a.date,
    type := jsOrStr a.type "anniversary", createdAt := now }

/-- The rows inserted by one `saveAnniversaries` call. -/
def normAnns (s : String) (nowAt : Nat → Nat) (anns : List AnnIn) : List AnnRow :=
  mapFrom (fun i a => mkAnn s (nowAt i) i a) 0 anns

/-- Sequence of `store.add` requests for anniversary rows. -/
def addAnnRows : List AnnRow → List AnnRow → Except DbError (List AnnRow)
  | rows, [] => .ok rows
  | rows, a :: as =>
    if rows.any (fun x => x.id == a.id) then .error .duplicateKey
    else addAnnRows (rows ++ [a]) as

/-- `saveAnniversaries(sessionId, anniversaries)`: delete the session's old
rows and `add` the new ones inside one transaction. -/
def saveAnniversaries (db : DB) (s : String) (anns : List AnnIn)
    (nowAt : Nat → Nat) : DB × Except DbError Unit :=
  let remaining := db.anniversaries.filter (fun r => !(r.sessionId == s))
  match addAnnRows remaining (normAnns s nowAt anns) with
  | .ok rows => ({ db with anniversaries := rows }, .ok ())
  | .error e => (db, .error e)

/-! ## Lemmas about the store primitives -/

theorem find?_map_replace (key : α → String) (r : α) :
    ∀ rows : List α,
      ((rows.map (fun x => if key x == key r then r else x)).find?
          (fun x => key x == key r))
        = if rows.any (fun x => key x == key r) then some r else none := by
  intro rows
  induction rows with
  | nil => simp
  | cons x xs ih =>
    by_cases hx : (key x == key r) = true
    · rw [List.map_cons, if_pos hx]
      rw [List.find?_cons_of_pos _ (by simp)]
      simp [List.any_cons, hx]
    · rw [List.map_cons, if_neg hx]
      rw [List.find?_cons_of_neg _ (by simpa using hx)]
      rw [ih]
      simp [List.any_cons, Bool.eq_false_iff.mpr hx]

theorem find?_putByKey (key : α → String) (rows : List α) (r : α) :
    (putByKey key rows r).find? (fun x => key x == key r) = some r := by
  unfold putByKey
  by_cases h : rows.any (fun x => key x == key r) = true
  · rw [if_pos h, find?_map_replace, if_pos h]
  · rw [if_neg h]
    have hnone : rows.find? (fun x => key x == key r) = none := by
      rw [List.find?_eq_none]
      intro x hx hpx
      exact h (List.any_eq_true.mpr ⟨x, hx, hpx⟩)
    rw [List.find?_append, hnone]
    simp

theorem filter_map_replace_nil (key : α → String) (r : α) :
    ∀ rows : List α, (∀ y ∈ rows, (key y == key r) = false) →
      ((rows.map (fun x => if key x == key r then r else x)).filter
          (fun x => key x == key r)) = [] := by
  intro rows h
  induction rows with
  | nil => simp
  | cons x xs ih =>
    have hx := h x (List.mem_cons_self _ _)
    rw [List.map_cons, if_neg (by simp [hx])]
    rw [List.filter_cons_of_neg (by simp [hx])]
    exact ih (fun y hy => h y (List.mem_cons_of_mem _ hy))

theorem filter_map_replace (key : α → String) (r : α) :
    ∀ rows : List α, (rows.map key).Nodup →
      ((rows.map (fun x => if key x == key r then r else x)).filter
          (fun x => key x == key r))
        = if rows.any (fun x => key x == key r) then [r] else [] := by
  intro rows hnodup
  induction rows with
  | nil => simp
  | cons x xs ih =>
    rw [List.map_cons, List.nodup_cons] at hnodup
    obtain ⟨hxnot, hnd⟩ := hnodup
    by_cases hx : (key x == key r) = true
    · rw [List.map_cons, if_pos hx]
      rw [List.filter_cons_of_pos (by simp)]
      have hkeq : key x = key r := by simpa using hx
      have hrest : ((xs.map (fun z => if key z == key r then r else z)).filter
          (fun z => key z == key r)) = [] := by
        apply filter_map_replace_nil
        intro y hy
        apply Bool.eq_false_iff.mpr
        intro hyr
        have : key y = key x := by
          have h1 : key y = key r := by simpa using hyr
          rw [h1, hkeq]
        exact hxnot (by rw [← this]; exact List.mem_map_of_mem key hy)
      rw [hrest]
      simp [List.any_cons, hx]
    · rw [List.map_cons, if_neg hx]
      rw [List.filter_cons_of_neg (by simpa using hx)]
      rw [ih hnd]
      simp [List.any_cons, Bool.eq_false_iff.mpr hx]

theorem filter_putByKey (key : α → String) (rows : List α) (r : α)
    (hnodup : (rows.map key).Nodup) :
    (putByKey key rows r).filter (fun x => key x == key r) = [r] := by
  unfold putByKey
  by_cases h : rows.any (fun x => key x == key r) = true
  · rw [if_pos h, filter_map_replace key r rows hnodup, if_pos h]
  · rw [if_neg h]
    have hnil : rows.filter (fun x => key x == key r) = [] := by
      rw [List.filter_eq_nil_iff]
      intro x hx hpx
      exact h (List.any_eq_true.mpr ⟨x, hx, hpx⟩)
    rw [List.filter_append, hnil]
    simp

theorem mem_putByKey {key : α → String} {rows : List α} {r x : α}
    (hx : x ∈ putByKey key rows r) : x = r ∨ x ∈ rows := by
  unfold putByKey at hx
  by_cases h : rows.any (fun z => key z == key r) = true
  · rw [if_pos h] at hx
    rcases List.mem_map.mp hx with ⟨y, hy, hxy⟩
    by_cases hyr : (key y == key r) = true
    · left; rw [← hxy, if_pos hyr]
    · right; rw [← hxy, if_neg hyr]; exact hy
  · rw [if_neg h] at hx
    rcases List.mem_append.mp hx with hx | hx
    · right; exact hx
    · left; simpa using hx

theorem nodup_map_key_putByKey (key : α → String) (rows : List α) (r : α)
    (hnodup : (rows.map key).Nodup) :
    ((putByKey key rows r).map key).Nodup := by
  unfold putByKey
  by_cases h : rows.any (fun x => key x == key r) = true
  · rw [if_pos h, List.map_map]
    have : rows.map (key ∘ fun x => if key x == key r then r else x) = rows.map key := by
      apply List.map_congr_left
      intro a _
      by_cases ha : (key a == key r) = true
      · simp only [Function.comp, if_pos ha]
        have : key a = key r := by simpa using ha
        rw [this]
      · simp only [Function.comp, if_neg ha]
    rw [this]
    exact hnodup
  · rw [if_neg h, List.map_append]
    rw [List.nodup_append]
    refine ⟨hnodup, by simp, ?_⟩
    intro a ha
    simp only [List.map_cons, List.map_nil, List.mem_singleton]
    intro har
    rcases List.mem_map.mp ha with ⟨y, hy, hya⟩
    apply h
    apply List.any_eq_true.mpr
    exact ⟨y, hy, by simp [hya, har]⟩

/-! ## Lemmas about message normalization and insertion -/

theorem fillMsgId_id_isSome (s : String) (now : Nat) (rand : String) (m : MsgRow) :
    (fillMsgId s now rand m).id ≠ none := by
  unfold fillMsgId
  split
  · simp
  · cases h : m.id with
    | none => simp [jsFalsyStr, h] at *
    | some v => simp [h]

theorem fillMsgId_sessionId (s : String) (now : Nat) (rand : String) (m : MsgRow) :
    (fillMsgId s now rand m).sessionId = m.sessionId := by
  unfold fillMsgId
  split <;> rfl

theorem fillSessionId_eq (s : String) (m : MsgRow)
    (h : jsFalsyStr m.sessionId = true ∨ m.sessionId = some s) :
    (fillSessionId s m).sessionId = some s := by
  unfold fillSessionId
  rcases h with h | h
  · rw [if_pos h]
  · split
    · rfl
    · exact h

theorem addMsgRows_ok : ∀ (new base : List MsgRow),
    (∀ m ∈ new, m.id ≠ none) →
    ((new.map MsgRow.id).Nodup) →
    (∀ m ∈ new, ∀ r ∈ base, r.id ≠ m.id) →
    addMsgRows base new = .ok (base ++ new) := by
  intro new
  induction new with
  | nil => intro base _ _ _; simp [addMsgRows]
  | cons m ms ih =>
    intro base hsome hnodup hfresh
    obtain ⟨i, hi⟩ : ∃ i, m.id = some i := by
      cases h : m.id with
      | none => exact absurd h (hsome m (List.mem_cons_self _ _))
      | some v => exact ⟨v, rfl⟩
    have hany : base.any (fun r => r.id == some i) = false := by
      rw [Bool.eq_false_iff]
      intro h
      rcases List.any_eq_true.mp h with ⟨r, hr, hri⟩
      have : r.id = some i := by simpa using hri
      exact hfresh m (List.mem_cons_self _ _) r hr (by rw [this, hi])
    rw [List.map_cons, List.nodup_cons] at hnodup
    obtain ⟨hmnot, hnd⟩ := hnodup
    have hstep : addMsgRows base (m :: ms) = addMsgRows (base ++ [m]) ms := by
      simp [addMsgRows, hi, hany]
    rw [hstep]
    rw [ih (base ++ [m])
      (fun x hx => hsome x (List.mem_cons_of_mem _ hx))
      hnd
      (fun x hx r hr => by
        rcases List.mem_append.mp hr with hr | hr
        · exact hfresh x (List.mem_cons_of_mem _ hx) r hr
        · have hrm : r = m := by simpa using hr
          rw [hrm]
          intro heq
          exact hmnot (heq ▸ List.mem_map_of_mem MsgRow.id hx))]
    simp

theorem mem_normMessages {s : String} {nowAt : Nat → Nat} {randAt : Nat → String}
    {msgs : List MsgRow} {x : MsgRow} (hx : x ∈ normMessages s nowAt randAt msgs) :
    ∃ j m, m ∈ msgs ∧ x = fillMsgId s (nowAt j) (randAt j) (fillSessionId s m) := by
  rcases mem_mapFrom hx with ⟨j, m, hm, _, hxm⟩
  exact ⟨j, m, hm, hxm⟩

theorem normMessages_sessionId {s : String} {nowAt : Nat → Nat} {randAt : Nat → String}
    {msgs : List MsgRow}
    (hsess : ∀ m ∈ msgs, jsFalsyStr m.sessionId = true ∨ m.sessionId = some s) :
    ∀ x ∈ normMessages s nowAt randAt msgs, x.sessionId = some s := by
  intro x hx
  rcases mem_normMessages hx with ⟨j, m, hm, rfl⟩
  rw [fillMsgId_sessionId]
  exact fillSessionId_eq s m (hsess m hm)

/-! ## Claim C2 -/

/-- Claim C2: for every session `S` that previously had `N` messages, after
`saveMessages(S, batch)` with a batch of size `N'` completes, exactly the
`N'` new messages exist for `S` — never `N + N'` and never a transiently
observable `0` — because the delete-old and insert-new phases share one
transaction (here: one state transition).  Hypotheses: each batch message
either lacks a session id (falsy) or already carries `S`, the ids of the
normalized batch are pairwise distinct, and none collides with a surviving
row of another session (otherwise `store.add` aborts the transaction and
the store is unchanged). -/
theorem saveMessages_replace_all (db : DB) (s : String) (msgs : List MsgRow)
    (nowAt : Nat → Nat) (randAt : Nat → String)
    (hsess : ∀ m ∈ msgs, jsFalsyStr m.sessionId = true ∨ m.sessionId = some s)
    (hids : ((normMessages s nowAt randAt msgs).map MsgRow.id).Nodup)
    (hfresh : ∀ m ∈ normMessages s nowAt randAt msgs,
      ∀ r ∈ db.messages, ¬(r.sessionId = some s) → r.id ≠ m.id) :
    (saveMessages db s msgs nowAt randAt).2 = .ok ()
    ∧ (saveMessages db s msgs nowAt randAt).1.messages.filter
        (fun m => m.sessionId == some s) = normMessages s nowAt randAt msgs
    ∧ (normMessages s nowAt randAt msgs).length = msgs.length := by
  have hsome : ∀ m ∈ normMessages s nowAt randAt msgs, m.id ≠ none := by
    intro x hx
    rcases mem_normMessages hx with ⟨j, m, hm, rfl⟩
    exact fillMsgId_id_isSome _ _ _ _
  have hfresh' : ∀ m ∈ normMessages s nowAt randAt msgs,
      ∀ r ∈ db.messages.filter (fun x => !(x.sessionId == some s)), r.id ≠ m.id := by
    intro m hm r hr
    rw [List.mem_filter] at hr
    apply hfresh m hm r hr.1
    have := hr.2
    simp only [Bool.not_eq_true', beq_eq_false_iff_ne, ne_eq] at this
    exact this
  have hadd := addMsgRows_ok (normMessages s nowAt randAt msgs)
      (db.messages.filter (fun x => !(x.sessionId == some s))) hsome hids hfresh'
  have hsm : saveMessages db s msgs nowAt randAt =
      ({ db with messages := db.messages.filter (fun x => !(x.sessionId == some s))
          ++ normMessages s nowAt randAt msgs }, .ok ()) := by
    simp only [saveMessages]
    rw [hadd]
  refine ⟨by rw [hsm], ?_, by simp [normMessages, length_mapFrom]⟩
  rw [hsm]
  simp only []
  rw [List.filter_append]
  have h1 : (db.messages.filter (fun x => !(x.sessionId == some s))).filter
      (fun m => m.sessionId == some s) = [] := by
    rw [List.filter_eq_nil_iff]
    intro a ha hpa
    rw [List.mem_filter] at ha
    have := ha.2
    simp only [Bool.not_eq_true', beq_eq_false_iff_ne, ne_eq] at this
    exact this (by simpa using hpa)
  have h2 : (normMessages s nowAt randAt msgs).filter
      (fun m => m.sessionId == some s) = normMessages s nowAt randAt msgs := by
    rw [List.filter_eq_self]
    intro a ha
    simp [normMessages_sessionId hsess a ha]
  rw [h1, h2]
  simp

/-- Witness for C2 at a concrete input: an empty store, session `"s1"`, and
a two-message batch. -/
theorem saveMessages_replace_all_witness :
    (saveMessages emptyDB "s1" [⟨none, none, 5, "hi"⟩, ⟨none, none, 3, "yo"⟩]
      (fun _ => 100) (fun i => natStr i)).2 = .ok ()
    ∧ (saveMessages emptyDB "s1" [⟨none, none, 5, "hi"⟩, ⟨none, none, 3, "yo"⟩]
        (fun _ => 100) (fun i => natStr i)).1.messages.filter
        (fun m => m.sessionId == some "s1")
      = normMessages "s1" (fun _ => 100) (fun i => natStr i)
          [⟨none, none, 5, "hi"⟩, ⟨none, none, 3, "yo"⟩]
    ∧ (normMessages "s1" (fun _ => 100) (fun i => natStr i)
        [⟨none, none, 5, "hi"⟩, ⟨none, none, 3, "yo"⟩]).length = 2 :=
  saveMessages_replace_all emptyDB "s1" [⟨none, none, 5, "hi"⟩, ⟨none, none, 3, "yo"⟩]
    (fun _ => 100) (fun i => natStr i) (by decide) (by decide) (by decide)

/-! ## Claim C1 -/

/-- Resource type string strictly above the range sentinel: two U+FFFF
characters compare greater than the single-character upper bound
`[sessionId, '￿']` used by `deleteSession`. -/
def bigTypeStr : String := "￿￿"

/-- Database with one session owning one resource whose `type` exceeds the
sentinel. -/
def dbC1 : DB :=
  { emptyDB with
    sessions := [⟨"s1", []⟩],
    resources := [mkRes "s1" bigTypeStr "k" "d" 0] }

/-- Counterexample to claim C1 as stated: after `deleteSession("s1")`
completes, the session row is gone but a dependent `resources` row with
`sessionId = "s1"` is still present, because its `type` lies above the
`'￿'` upper bound of the composite index range used for the resource
sweep. -/
theorem deleteSession_misses_high_type_resource :
    (deleteSession dbC1 "s1").sessions = []
    ∧ (deleteSession dbC1 "s1").resources = [mkRes "s1" bigTypeStr "k" "d" 0]
    ∧ (mkRes "s1" bigTypeStr "k" "d" 0).sessionId = "s1" := by decide

/-- Claim C1 (amended): after `deleteSession(S)` completes, the Session row
for `S`, every dependent `messages`, `settings`, `customReplies` and
`anniversaries` row with `sessionId = S`, and every dependent `resources`
row with `sessionId = S` whose `type` is at most the `'￿'` sentinel,
are absent; resources whose `type` compares above the sentinel survive.
All deletions are one transaction, modelled as the single state transition
`deleteSession`, so no intermediate state is observable. -/
theorem strLE_empty_left (t : String) : strLE "" t = true := rfl

theorem filter_not_filter_nil (p q : α → Bool) (l : List α)
    (h : ∀ x, p x = true → q x = true) :
    (l.filter (fun x => !(q x))).filter p = [] := by
  rw [List.filter_eq_nil_iff]
  intro a ha hpa
  rw [List.mem_filter] at ha
  have hqf : q a = false := by simpa using ha.2
  rw [h a hpa] at hqf
  simp at hqf

theorem deleteSession_cascade_amended (db : DB) (s : String) :
    ((deleteSession db s).sessions.filter (fun r => r.id == s)) = []
    ∧ ((deleteSession db s).messages.filter (fun m => m.sessionId == some s)) = []
    ∧ ((deleteSession db s).resources.filter
        (fun r => r.sessionId == s && strLE r.type uffffStr)) = []
    ∧ ((deleteSession db s).settings.filter (fun r => r.sessionId == s)) = []
    ∧ ((deleteSession db s).customReplies.filter (fun r => r.sessionId == s)) = []
    ∧ ((deleteSession db s).anniversaries.filter (fun r => r.sessionId == s)) = [] := by
  refine ⟨?_, ?_, ?_, ?_, ?_, ?_⟩
  · exact filter_not_filter_nil _ _ _ (fun x h => h)
  · exact filter_not_filter_nil _ _ _ (fun x h => h)
  · apply filter_not_filter_nil
    intro x h
    rw [Bool.and_eq_true] at h
    rw [Bool.and_eq_true, Bool.and_eq_true]
    exact ⟨⟨h.1, strLE_empty_left _⟩, h.2⟩
  · exact filter_not_filter_nil _ _ _ (fun x h => h)
  · exact filter_not_filter_nil _ _ _ (fun x h => h)
  · exact filter_not_filter_nil _ _ _ (fun x h => h)

/-- Closed instance of the amended C1 at a concrete database. -/
theorem deleteSession_cascade_amended_witness :
    ((deleteSession dbC1 "s1").sessions.filter (fun r => r.id == "s1")) = []
    ∧ ((deleteSession dbC1 "s1").messages.filter
        (fun m => m.sessionId == some "s1")) = []
    ∧ ((deleteSession dbC1 "s1").resources.filter
        (fun r => r.sessionId == "s1" && strLE r.type uffffStr)) = []
    ∧ ((deleteSession dbC1 "s1").settings.filter (fun r => r.sessionId == "s1")) = []
    ∧ ((deleteSession dbC1 "s1").customReplies.filter
        (fun r => r.sessionId == "s1")) = []
    ∧ ((deleteSession dbC1 "s1").anniversaries.filter
        (fun r => r.sessionId == "s1")) = [] :=
  deleteSession_cascade_amended dbC1 "s1"

/-! ## Claim C3 -/

/-- Store invariant of the `resources` collection: primary keys are
pairwise distinct and each row's `id` is the composite of its own triple,
as every row written by `saveResource` satisfies. -/
def ResourcesWF (db : DB) : Prop :=
  (∀ r ∈ db.resources, r.id = resId r.sessionId r.type r.key)
  ∧ (db.resources.map ResRow.id).Nodup

theorem saveResource_preserves_WF (db : DB) (s t k data : String) (now : Nat)
    (h : ResourcesWF db) : ResourcesWF (saveResource db s t k data now) := by
  obtain ⟨hid, hnodup⟩ := h
  constructor
  · intro r hr
    rcases mem_putByKey hr with hr | hr
    · rw [hr]; rfl
    · exact hid r hr
  · exact nodup_map_key_putByKey (fun r => r.id) db.resources _ hnodup

/-- Claim C3: for every triple `(S, type, key)` and data values `A` then
`B`, `saveResource(S, type, key, A)` followed by
`saveResource(S, type, key, B)` leaves exactly one `resources` row for the
triple, and `loadResource(S, type, key)` returns `B` — the second save
overwrites rather than duplicates.  Hypothesis: the store satisfies the
invariant `saveResource` itself maintains (composite ids, distinct keys). -/
theorem saveResource_upsert_last_write_wins (db : DB) (s t k a b : String)
    (n1 n2 : Nat) (hwf : ResourcesWF db) :
    ((saveResource (saveResource db s t k a n1) s t k b n2).resources.filter
        (fun r => r.sessionId == s && r.type == t && r.key == k))
      = [mkRes s t k b n2]
    ∧ loadResource (saveResource (saveResource db s t k a n1) s t k b n2) s t k
        = some b := by
  have hwf1 : ResourcesWF (saveResource db s t k a n1) :=
    saveResource_preserves_WF db s t k a n1 hwf
  have hwf2 : ResourcesWF (saveResource (saveResource db s t k a n1) s t k b n2) :=
    saveResource_preserves_WF _ s t k b n2 hwf1
  have hidfilter :
      (saveResource (saveResource db s t k a n1) s t k b n2).resources.filter
        (fun r => r.id == resId s t k) = [mkRes s t k b n2] :=
    filter_putByKey (fun r => r.id) (saveResource db s t k a n1).resources
      (mkRes s t k b n2) hwf1.2
  have himp : ∀ x ∈ (saveResource (saveResource db s t k a n1) s t k b n2).resources,
      (x.sessionId == s && x.type == t && x.key == k) = true →
      (x.id == resId s t k) = true := by
    intro x hx htriple
    rw [Bool.and_eq_true, Bool.and_eq_true] at htriple
    obtain ⟨⟨h1, h2⟩, h3⟩ := htriple
    have e1 : x.sessionId = s := by simpa using h1
    have e2 : x.type = t := by simpa using h2
    have e3 : x.key = k := by simpa using h3
    have := hwf2.1 x hx
    rw [e1, e2, e3] at this
    simp [this]
  constructor
  · have hcongr :
        (saveResource (saveResource db s t k a n1) s t k b n2).resources.filter
          (fun r => r.sessionId == s && r.type == t && r.key == k)
        = (saveResource (saveResource db s t k a n1) s t k b n2).resources.filter
          (fun r => (r.sessionId == s && r.type == t && r.key == k)
            && (r.id == resId s t k)) := by
      apply List.filter_congr
      intro x hx
      by_cases hp : (x.sessionId == s && x.type == t && x.key == k) = true
      · rw [hp, himp x hx hp]
        rfl
      · rw [Bool.eq_false_iff.mpr hp]
        simp
    rw [hcongr, ← List.filter_filter, hidfilter]
    simp [mkRes]
  · have hfind :
        (saveResource (saveResource db s t k a n1) s t k b n2).resources.find?
          (fun r => r.id == resId s t k) = some (mkRes s t k b n2) :=
      find?_putByKey (fun r => r.id) (saveResource db s t k a n1).resources
        (mkRes s t k b n2)
    unfold loadResource
    rw [hfind]
    rfl

/-- Witness for C3 at a concrete input: the empty store, triple
`("s1", "avatar", "main")`, data `"blobA"` then `"blobB"`. -/
theorem saveResource_upsert_last_write_wins_witness :
    ((saveResource (saveResource emptyDB "s1" "avatar" "main" "blobA" 1)
        "s1" "avatar" "main" "blobB" 2).resources.filter
        (fun r => r.sessionId == "s1" && r.type == "avatar" && r.key == "main"))
      = [mkRes "s1" "avatar" "main" "blobB" 2]
    ∧ loadResource (saveResource (saveResource emptyDB "s1" "avatar" "main" "blobA" 1)
        "s1" "avatar" "main" "blobB" 2) "s1" "avatar" "main" = some "blobB" :=
  saveResource_upsert_last_write_wins emptyDB "s1" "avatar" "main" "blobA" "blobB"
    1 2 ⟨by decide, by decide⟩

/-! ## Claim C4 -/

/-- Database with one settings row for `"s1"` carrying a field `a`. -/
def dbC4 : DB := { emptyDB with settings := [⟨"s1", [("a", "1")]⟩] }

/-- Counterexample to claim C4 as stated: `saveSettings("s1", {b: "2"})`
on a store whose settings row for `"s1"` holds `{a: "1"}` leaves a row
containing only `{b: "2"}` — the old field `a` is gone, because
`saveSettings` builds `{sessionId, ...settings}` and `put`s it, replacing
the whole row instead of merging into it. -/
theorem saveSettings_drops_old_field :
    loadSettings (saveSettings dbC4 "s1" [("b", "2")]) "s1"
      = some ⟨"s1", [("b", "2")]⟩
    ∧ ((loadSettings (saveSettings dbC4 "s1" [("b", "2")]) "s1").map
        (fun r => r.fields.lookup "a")) = some none := by decide

/-- Claim C4 (amended): `saveSettings(S, newFields)` replaces the settings
row wholesale: afterwards `loadSettings` returns a row holding exactly the
provided fields (plus the key), so fields present in the old row but
absent from `newFields` are lost.  The stored key is `S` unless
`newFields` itself carries a `sessionId` property, which the object spread
lets win. -/
theorem saveSettings_replaces_row (db : DB) (s : String)
    (settings : List (String × String)) :
    loadSettings (saveSettings db s settings) ((settings.lookup "sessionId").getD s)
      = some { sessionId := (settings.lookup "sessionId").getD s,
               fields := settings.filter (fun p => !(p.1 == "sessionId")) } := by
  exact find?_putByKey (fun r => r.sessionId) db.settings
    { sessionId := (settings.lookup "sessionId").getD s,
      fields := settings.filter (fun p => !(p.1 == "sessionId")) }

/-- Closed instance of the amended C4 at a concrete input. -/
theorem saveSettings_replaces_row_witness :
    loadSettings (saveSettings dbC4 "s1" [("b", "2")])
        (([("b", "2")].lookup "sessionId").getD "s1")
      = some { sessionId := ([("b", "2")].lookup "sessionId").getD "s1",
               fields := [("b", "2")].filter (fun p => !(p.1 == "sessionId")) } :=
  saveSettings_replaces_row dbC4 "s1" [("b", "2")]

/-! ## Claim C5 -/

/-- Claim C5: for every `sessionId` that has no Session row,
`updateSession(sessionId, updates)` rejects with `NotFoundError`
(the `reject(new Error(...))` branch) and leaves the whole database —
in particular the sessions collection — unchanged. -/
theorem updateSession_missing_rejects_not_found (db : DB) (s : String)
    (updates : List (String × String))
    (h : ∀ r ∈ db.sessions, r.id ≠ s) :
    updateSession db s updates = (db, .error .notFound) := by
  unfold updateSession
  have hf : db.sessions.find? (fun r => r.id == s) = none := by
    rw [List.find?_eq_none]
    intro x hx hpx
    exact h x hx (by simpa using hpx)
  rw [hf]

/-- Witness for C5: updating `"missing-id"` on the empty store. -/
theorem updateSession_missing_rejects_not_found_witness :
    updateSession emptyDB "missing-id" [("name", "x")]
      = (emptyDB, .error DbError.notFound) :=
  updateSession_missing_rejects_not_found emptyDB "missing-id" [("name", "x")]
    (by decide)

/-! ## Claim C6 -/

/-- A freshly constructed `ChatDatabase` against an empty store: no cached
handle, no connections yet, schema version 0. -/
def freshConn : ConnState := ⟨none, 0, 0, 0⟩

/-- Counterexample to claim C6 as stated: `open()` is not memoized.
A second call to `open()` after the first completed opens a second
underlying connection (`opens = 2`) and returns a different handle, so
repeated calls do create duplicate connections.  (The upgrade does run
only once, since the second open sees the stored version already at
`dbVersion`.) -/
theorem open_twice_creates_two_connections :
    ((openDb (openDb freshConn).1).1.opens = 2)
    ∧ (openDb freshConn).2 ≠ (openDb (openDb freshConn).1).2
    ∧ (openDb (openDb freshConn).1).1.upgrades = 1 := by decide

/-- Claim C6 (amended): the memoization lives in the callers, not in
`open()`: every collection operation runs `if (!this.db) await this.open()`
(`ensureOpen`), so once a handle is cached all later operations reuse it
without opening a new connection, and a call with no cached handle opens
exactly one connection and caches its handle.  Direct repeated calls to
`open()` itself, however, each create a fresh underlying connection
(see the counterexample). -/
theorem ensureOpen_memoized_behavior (st1 : ConnState) (h1 : Nat)
    (hc : st1.db = some h1) (st2 : ConnState) (hn : st2.db = none) :
    ensureOpen st1 = (st1, h1)
    ∧ (ensureOpen st2).1.opens = st2.opens + 1
    ∧ (ensureOpen st2).1.db = some st2.opens := by
  refine ⟨?_, ?_, ?_⟩
  · unfold ensureOpen
    rw [hc]
  · unfold ensureOpen
    rw [hn]
    rfl
  · unfold ensureOpen
    rw [hn]
    rfl

/-- Witness for the amended C6 at concrete states. -/
theorem ensureOpen_memoized_behavior_witness :
    ensureOpen ⟨some 7, 1, 2, 1⟩ = (⟨some 7, 1, 2, 1⟩, 7)
    ∧ (ensureOpen ⟨none, 0, 0, 0⟩).1.opens = 0 + 1
    ∧ (ensureOpen ⟨none, 0, 0, 0⟩).1.db = some 0 :=
  ensureOpen_memoized_behavior ⟨some 7, 1, 2, 1⟩ 7 rfl ⟨none, 0, 0, 0⟩ rfl

/-! ## Claim C7 -/

theorem fillSessionId_id (s : String) (m : MsgRow) :
    (fillSessionId s m).id = m.id := by
  unfold fillSessionId
  split <;> rfl

theorem fillMsgId_of_falsy (s : String) (now : Nat) (rand : String) (m : MsgRow)
    (h : jsFalsyStr m.id = true) :
    (fillMsgId s now rand m).id = some (genMsgId s now rand) := by
  unfold fillMsgId
  rw [if_pos h]

theorem genMsgId_inj_rand {s : String} {now : Nat} {r1 r2 : String}
    (h : genMsgId s now r1 = genMsgId s now r2) : r1 = r2 :=
  strApp_left_cancel h

theorem genReplyId_inj_idx {s : String} {now : Nat} {i j : Nat}
    (h : genReplyId s now i = genReplyId s now j) : i = j :=
  natStr_inj (strApp_left_cancel h)

theorem genAnnId_inj_idx {s : String} {now : Nat} {i j : Nat}
    (h : genAnnId s now i = genAnnId s now j) : i = j :=
  natStr_inj (strApp_left_cancel h)

/-- Claim C7: for every bulk save (`saveMessages`, `saveCustomReplies`,
`saveAnniversaries`), the identifiers generated for the inserted rows of
that save are pairwise distinct, even when every row is generated within
the same millisecond (all `Date.now()` draws equal to `now`).  For
messages the ids carry the per-row `Math.random()` suffix, assumed to draw
distinct values at distinct rows (`hrand`); for custom replies and
anniversaries the loop index suffix makes the ids distinct outright.  The
message hypothesis `hfalsy` restricts to rows whose ids the save actually
generates. -/
theorem bulk_save_generated_ids_distinct (s : String) (now : Nat)
    (msgs : List MsgRow) (nowAtM : Nat → Nat) (randAt : Nat → String)
    (replies : List ReplyIn) (nowAtR : Nat → Nat)
    (anns : List AnnIn) (nowAtA : Nat → Nat)
    (hconstM : ∀ i, nowAtM i = now) (hconstR : ∀ i, nowAtR i = now)
    (hconstA : ∀ i, nowAtA i = now)
    (hrand : ∀ i j, i ≠ j → randAt i ≠ randAt j)
    (hfalsy : ∀ m ∈ msgs, jsFalsyStr m.id = true) :
    ((normMessages s nowAtM randAt msgs).map MsgRow.id).Nodup
    ∧ ((normReplies s nowAtR replies).map ReplyRow.id).Nodup
    ∧ ((normAnns s nowAtA anns).map AnnRow.id).Nodup := by
  refine ⟨?_, ?_, ?_⟩
  · apply mapFrom_map_nodup
    intro j k a b ha hb hjk heq
    have hja : jsFalsyStr (fillSessionId s a).id = true := by
      rw [fillSessionId_id]; exact hfalsy a ha
    have hjb : jsFalsyStr (fillSessionId s b).id = true := by
      rw [fillSessionId_id]; exact hfalsy b hb
    rw [fillMsgId_of_falsy _ _ _ _ hja, fillMsgId_of_falsy _ _ _ _ hjb,
      hconstM j, hconstM k] at heq
    have : genMsgId s now (randAt j) = genMsgId s now (randAt k) :=
      Option.some.inj heq
    exact hrand j k hjk (genMsgId_inj_rand this)
  · apply mapFrom_map_nodup
    intro j k a b _ _ hjk heq
    have : genReplyId s (nowAtR j) j = genReplyId s (nowAtR k) k := heq
    rw [hconstR j, hconstR k] at this
    exact hjk (genReplyId_inj_idx this)
  · apply mapFrom_map_nodup
    intro j k a b _ _ hjk heq
    have : genAnnId s (nowAtA j) j = genAnnId s (nowAtA k) k := heq
    rw [hconstA j, hconstA k] at this
    exact hjk (genAnnId_inj_idx this)

/-- Witness for C7 at a concrete input: one save of each kind with all
`Date.now()` draws equal to 100, and the decimal index as the random
suffix (injective by `natStr_inj`). -/
theorem bulk_save_generated_ids_distinct_witness :
    ((normMessages "s1" (fun _ => 100) (fun i => natStr i)
        [⟨none, none, 5, "hi"⟩, ⟨none, none, 3, "yo"⟩]).map MsgRow.id).Nodup
    ∧ ((normReplies "s1" (fun _ => 100)
        [⟨"ok", none⟩, ⟨"no", some false⟩]).map ReplyRow.id).Nodup
    ∧ ((normAnns "s1" (fun _ => 100)
        [⟨"bd", "2024-01-01", none⟩, ⟨"x", "2024-02-02", some "festival"⟩]).map
        AnnRow.id).Nodup :=
  bulk_save_generated_ids_distinct "s1" 100
    [⟨none, none, 5, "hi"⟩, ⟨none, none, 3, "yo"⟩] (fun _ => 100) (fun i => natStr i)
    [⟨"ok", none⟩, ⟨"no", some false⟩] (fun _ => 100)
    [⟨"bd", "2024-01-01", none⟩, ⟨"x", "2024-02-02", some "festival"⟩] (fun _ => 100)
    (fun _ => rfl) (fun _ => rfl) (fun _ => rfl)
    (fun i j hij h => hij (natStr_inj h)) (by decide)

/-! ## Claim C8 -/

/-- Claim C8: for every session `S`, `loadCustomReplies(S)` returns no
entry whose stored `enabled` field is `false` (the `r.enabled !== false`
filter removes them), and the returned entries are ordered non-increasing
by their stored `timestamp` (the `(a, b) => b.timestamp - a.timestamp`
comparator); the returned list is the projection `{text, id}` of the
filtered, sorted rows. -/
theorem loadCustomReplies_filter_sorted (db : DB) (s : String) :
    ((customRepliesQuery db s).filter (fun r => r.enabled == false)) = []
    ∧ (customRepliesQuery db s).Pairwise (fun a b => b.timestamp ≤ a.timestamp)
    ∧ loadCustomReplies db s = (customRepliesQuery db s).map (fun r => (r.text, r.id)) := by
  refine ⟨?_, ?_, rfl⟩
  · rw [List.filter_eq_nil_iff]
    intro a ha hpa
    rw [customRepliesQuery, mem_sortLe] at ha
    rw [List.mem_filter] at ha
    have : (a.enabled == false) = false := by simpa using ha.2
    rw [hpa] at this
    simp at this
  · have hp := pairwise_sortLe (α := ReplyRow)
      (fun a b => b.timestamp ≤ a.timestamp)
      (fun a b => by simp [Nat.le_total])
      (fun a b c hab hbc => by
        simp only [decide_eq_true_eq] at *
        omega)
      ((db.customReplies.filter (fun r => r.sessionId == s)).filter
        (fun r => !(r.enabled == false)))
    refine List.Pairwise.imp ?_ hp
    intro a b h
    simpa using h

/-- Closed instance of C8 at a concrete store holding an enabled, a
disabled, and another enabled reply out of timestamp order. -/
theorem loadCustomReplies_filter_sorted_witness :
    ((customRepliesQuery
        { emptyDB with customReplies :=
          [⟨"id1", "s1", "a", true, 5⟩, ⟨"id2", "s1", "b", false, 9⟩,
           ⟨"id3", "s1", "c", true, 7⟩] } "s1").filter
        (fun r => r.enabled == false)) = []
    ∧ (customRepliesQuery
        { emptyDB with customReplies :=
          [⟨"id1", "s1", "a", true, 5⟩, ⟨"id2", "s1", "b", false, 9⟩,
           ⟨"id3", "s1", "c", true, 7⟩] } "s1").Pairwise
        (fun a b => b.timestamp ≤ a.timestamp)
    ∧ loadCustomReplies
        { emptyDB with customReplies :=
          [⟨"id1", "s1", "a", true, 5⟩, ⟨"id2", "s1", "b", false, 9⟩,
           ⟨"id3", "s1", "c", true, 7⟩] } "s1"
      = (customRepliesQuery
          { emptyDB with customReplies :=
            [⟨"id1", "s1", "a", true, 5⟩, ⟨"id2", "s1", "b", false, 9⟩,
             ⟨"id3", "s1", "c", true, 7⟩] } "s1").map (fun r => (r.text, r.id)) :=
  loadCustomReplies_filter_sorted
    { emptyDB with customReplies :=
      [⟨"id1", "s1", "a", true, 5⟩, ⟨"id2", "s1", "b", false, 9⟩,
       ⟨"id3", "s1", "c", true, 7⟩] } "s1"

/-! ## Claim C9 -/

/-- Claim C9: the resource id built by underscore concatenation is not
injective over triples: the distinct triples `("a_b", "c", "k")` and
`("a", "b_c", "k")` share the id `"a_b_c_k"`, so saving a resource under
one triple overwrites the row stored under the other — after saving data
`"A"` for `("a", "b_c", "k")` and then `"B"` for `("a_b", "c", "k")`, a
load of the first triple returns `"B"` and only one row exists. -/
theorem resourceId_collision_overwrites :
    resId "a_b" "c" "k" = resId "a" "b_c" "k"
    ∧ ("a_b", "c", "k") ≠ (("a", "b_c", "k") : String × String × String)
    ∧ loadResource (saveResource (saveResource emptyDB "a" "b_c" "k" "A" 0)
        "a_b" "c" "k" "B" 1) "a" "b_c" "k" = some "B"
    ∧ (saveResource (saveResource emptyDB "a" "b_c" "k" "A" 0)
        "a_b" "c" "k" "B" 1).resources.length = 1 := by decide

/-! ## Claim C10 -/

/-- Counterexample to claim C10 as stated: a message whose `sessionId`
field is present but holds the empty string is not left unchanged — the
JavaScript `if (!msg.sessionId)` guard is a truthiness test, so the falsy
empty string is overwritten with the session id. -/
theorem saveMessages_overwrites_present_empty_sessionId :
    ((normMessages "s1" (fun _ => 0) (fun _ => "r")
        [⟨some "x", some "", 7, "t"⟩]).map MsgRow.sessionId) = [some "s1"]
    ∧ (⟨some "x", some "", 7, "t"⟩ : MsgRow).sessionId = some ""
    ∧ (some "" : Option String) ≠ some "s1" := by decide

/-- Claim C10 (amended): `saveMessages` (and `addMessage`) normalizes each
caller-supplied message object in place: `sessionId` is set to the
session exactly when the field is falsy (absent or the empty string), `id`
is set to a generated id exactly when that field is falsy, and all other
fields (`timestamp`, payload `text`) are never touched; truthy fields are
kept as they are.  Because the loop mutates the objects themselves, the
caller's array elements equal this normalized form afterwards
(`normMessages`). -/
theorem saveMessages_field_normalization (s : String) (now : Nat) (rand : String)
    (m : MsgRow) :
    (fillMsgId s now rand (fillSessionId s m)).sessionId
      = (if jsFalsyStr m.sessionId then some s else m.sessionId)
    ∧ (fillMsgId s now rand (fillSessionId s m)).id
      = (if jsFalsyStr m.id then some (genMsgId s now rand) else m.id)
    ∧ (fillMsgId s now rand (fillSessionId s m)).timestamp = m.timestamp
    ∧ (fillMsgId s now rand (fillSessionId s m)).text = m.text := by
  refine ⟨?_, ?_, ?_, ?_⟩
  · rw [fillMsgId_sessionId]
    by_cases h : jsFalsyStr m.sessionId = true
    · simp [fillSessionId, h]
    · simp [fillSessionId, h]
  · by_cases h : jsFalsyStr m.id = true
    · rw [fillMsgId_of_falsy _ _ _ _ (by rw [fillSessionId_id]; exact h), if_pos h]
    · have hfill : (fillMsgId s now rand (fillSessionId s m)).id
          = (fillSessionId s m).id := by
        unfold fillMsgId
        rw [if_neg (by rw [fillSessionId_id]; exact h)]
      rw [hfill, fillSessionId_id, if_neg h]
  · unfold fillMsgId fillSessionId
    split <;> split <;> rfl
  · unfold fillMsgId fillSessionId
    split <;> split <;> rfl

/-- Closed instance of the amended C10 at a concrete message that already
carries truthy `sessionId` and `id` fields. -/
theorem saveMessages_field_normalization_witness :
    (fillMsgId "s1" 100 "r7" (fillSessionId "s1" ⟨some "mid", some "s2", 42, "hey"⟩)).sessionId
      = (if jsFalsyStr (some "s2") then some "s1" else some "s2")
    ∧ (fillMsgId "s1" 100 "r7" (fillSessionId "s1" ⟨some "mid", some "s2", 42, "hey"⟩)).id
      = (if jsFalsyStr (some "mid") then some (genMsgId "s1" 100 "r7") else some "mid")
    ∧ (fillMsgId "s1" 100 "r7" (fillSessionId "s1" ⟨some "mid", some "s2", 42, "hey"⟩)).timestamp = 42
    ∧ (fillMsgId "s1" 100 "r7" (fillSessionId "s1" ⟨some "mid", some "s2", 42, "hey"⟩)).text = "hey" :=
  saveMessages_field_normalization "s1" 100 "r7" ⟨some "mid", some "s2", 42, "hey"⟩
